import Mathlib

/-!
Verification development for the roudenn workout extractor.

Time values are modelled as integer milliseconds since the Unix epoch
(UTC); chrono DateTime values in the source carry at least millisecond
precision and every comparison or subtraction the source performs on
them agrees with the comparison or subtraction of these integers.
External collaborators (the chrono date-time parser, the f64 parser)
are either modelled concretely on the subset of inputs the source
exercises, or taken as function parameters where only their
success/failure pattern matters.
-/

namespace Roudenn

/-- Days since 1970-01-01 of the proleptic Gregorian date y-m-d,
via the standard civil-days algorithm. This models the calendar
arithmetic used by the chrono crate. -/
def daysFromCivil (y m d : Int) : Int :=
  let yy := if m ≤ 2 then y - 1 else y
  let era := Int.fdiv yy 400
  let yoe := yy - era * 400
  let doy := Int.fdiv (153 * (m + (if 2 < m then -3 else 9)) + 2) 5 + d - 1
  let doe := yoe * 365 + Int.fdiv yoe 4 - Int.fdiv yoe 100 + doy
  era * 146097 + doe - 719468

/-- Largest millisecond timestamp representable by a chrono
NaiveDateTime: the last millisecond of year 262143 (chrono MAX_YEAR). -/
def chronoMaxMs : Int := daysFromCivil 262144 1 1 * 86400000 - 1

/-- Smallest millisecond timestamp representable by a chrono
NaiveDateTime: the first millisecond of year -262144 (chrono MIN_YEAR). -/
def chronoMinMs : Int := daysFromCivil (-262144) 1 1 * 86400000

/-- Model of Rust `Utc.timestamp_millis_opt(ms).single()` from chrono:
returns the same instant (still measured in milliseconds) exactly when
the value lies in the representable NaiveDateTime range, and `none`
otherwise. For the Utc time zone the LocalResult is Single on every
in-range value. -/
def timestampMillisOpt (ms : Int) : Option Int :=
  if chronoMinMs ≤ ms ∧ ms ≤ chronoMaxMs then some ms else none

/-- Gregorian leap-year test (astronomical year numbering), as in chrono. -/
def isLeapYear (y : Int) : Bool :=
  y % 4 == 0 && (y % 100 != 0 || y % 400 == 0)

/-- Number of days of month m in year y. -/
def daysInMonth (y m : Int) : Int :=
  if m = 2 then (if isLeapYear y then 29 else 28)
  else if m = 4 ∨ m = 6 ∨ m = 9 ∨ m = 11 then 30
  else 31

/-- Numeric value of an ASCII digit character. -/
def digitVal (c : Char) : Int := Int.ofNat (c.toNat - 48)

/-- Model of parsing the 19-character date-time core `YYYY-MM-DDThh:mm:ss`
of an RFC3339 string, returning naive seconds since the epoch. Mirrors
the validation chrono performs: calendar-valid date, hour below 24,
minute and second below 60 (leap-second inputs, which chrono represents
through the nanosecond field, are outside the modelled subset). -/
def parseDateTime19 (cs : List Char) : Option Int :=
  match cs with
  | [y1, y2, y3, y4, s1, m1, m2, s2, d1, d2, s3, h1, h2, s4, i1, i2, s5, e1, e2] =>
    if (s1 = '-' ∧ s2 = '-' ∧ s3 = 'T' ∧ s4 = ':' ∧ s5 = ':') ∧
       ([y1, y2, y3, y4, m1, m2, d1, d2, h1, h2, i1, i2, e1, e2].all Char.isDigit) then
      let y := 1000 * digitVal y1 + 100 * digitVal y2 + 10 * digitVal y3 + digitVal y4
      let mo := 10 * digitVal m1 + digitVal m2
      let dy := 10 * digitVal d1 + digitVal d2
      let h := 10 * digitVal h1 + digitVal h2
      let mi := 10 * digitVal i1 + digitVal i2
      let se := 10 * digitVal e1 + digitVal e2
      if 1 ≤ mo ∧ mo ≤ 12 ∧ 1 ≤ dy ∧ dy ≤ daysInMonth y mo ∧ h ≤ 23 ∧ mi ≤ 59 ∧ se ≤ 59 then
        some (daysFromCivil y mo dy * 86400 + h * 3600 + mi * 60 + se)
      else none
    else none
  | _ => none

/-- Model of chrono `DateTime::parse_from_rfc3339` followed by
`with_timezone(&Utc)`, returning UTC milliseconds since the epoch.
Covers the subset of RFC3339 the program actually feeds it:
`YYYY-MM-DDThh:mm:ss` followed by `Z`, `z`, or a numeric offset
`±hh:mm` (offset hours below 24); fractional seconds are outside the
modelled subset. -/
def parseRfc3339Chars (cs : List Char) : Option Int :=
  match parseDateTime19 (cs.take 19) with
  | none => none
  | some naive =>
    match cs.drop 19 with
    | ['Z'] => some (naive * 1000)
    | ['z'] => some (naive * 1000)
    | [sg, o1, o2, c, o3, o4] =>
      if (sg = '+' ∨ sg = '-') ∧ c = ':' ∧ ([o1, o2, o3, o4].all Char.isDigit) then
        let oh := 10 * digitVal o1 + digitVal o2
        let om := 10 * digitVal o3 + digitVal o4
        if oh ≤ 23 ∧ om ≤ 59 then
          let off := oh * 3600 + om * 60
          some ((naive - (if sg = '+' then off else -off)) * 1000)
        else none
      else none
    | _ => none

/-- String-level wrapper for the RFC3339 parse model. -/
def parseRfc3339M (s : String) : Option Int := parseRfc3339Chars s.data

/-- Digit-string accumulator. -/
def natOfDigits (acc : Nat) : List Char → Option Nat
  | [] => some acc
  | c :: rest => if c.isDigit then natOfDigits (acc * 10 + (c.toNat - 48)) rest else none

/-- Plain decimal integer parser, used as a concrete stand-in for the
f64 parser on the integral coordinate strings of concrete test
streams. -/
def parseIntM (s : String) : Option Int :=
  match s.data with
  | [] => none
  | '-' :: rest =>
    match rest with
    | [] => none
    | _ => (natOfDigits 0 rest).map fun n => -(Int.ofNat n)
  | l => (natOfDigits 0 l).map Int.ofNat

/-- Shape of the filename timestamp regex from main.rs (TS_RE):
`\d{4}-\d{2}-\d{2}T\d{2}_\d{2}_\d{2}[+-]\d{2}_\d{2}`, 25 characters.
Digits are modelled as ASCII digits. -/
def tsShapeAt (cs : List Char) : Bool :=
  match cs.take 25 with
  | [y1, y2, y3, y4, s1, m1, m2, s2, d1, d2, s3, h1, h2, s4, i1, i2, s5, e1, e2,
     sg, o1, o2, s6, o3, o4] =>
    ([y1, y2, y3, y4, m1, m2, d1, d2, h1, h2, i1, i2, e1, e2, o1, o2, o3, o4].all
        Char.isDigit) &&
    s1 == '-' && s2 == '-' && s3 == 'T' && s4 == '_' && s5 == '_' && s6 == '_' &&
    (sg == '+' || sg == '-')
  | _ => false

/-- Leftmost match of the TS_RE pattern: returns the 25 matched
characters of the earliest position where the shape matches. -/
def findTs : List Char → Option (List Char)
  | [] => none
  | c :: rest =>
    if tsShapeAt (c :: rest) then some ((c :: rest).take 25)
    else findTs rest

/-- Model of `parse_start_from_filename` (main.rs): find the TS_RE
pattern in the file name, replace underscores by colons, parse as a
fixed-offset RFC3339 date-time and convert to UTC milliseconds. -/
def parse_start_from_filename (name : String) : Option Int :=
  match findTs name.data with
  | none => none
  | some raw => parseRfc3339Chars (raw.map fun c => if c = '_' then ':' else c)

/-! Sorting. Rust `Vec::sort_by` is a stable sort; every stable sort by
the same total preorder produces the same list, so we model it with the
stable insertion sort from Mathlib, instantiated with the
descending-by-key relation used throughout the source
(`|a, b| b.start.cmp(&a.start)` and SQL `ORDER BY START_TIME DESC`). -/

/-- Descending order by an integer key. -/
def byKeyDesc (key : α → Int) (a b : α) : Prop := key b ≤ key a

instance (key : α → Int) : DecidableRel (byKeyDesc key) :=
  fun a b => inferInstanceAs (Decidable (key b ≤ key a))

instance (key : α → Int) : IsTotal α (byKeyDesc key) :=
  ⟨fun a b => le_total (key b) (key a)⟩

instance (key : α → Int) : IsTrans α (byKeyDesc key) :=
  ⟨fun _ _ _ h1 h2 => le_trans h2 h1⟩

/-- Stable descending sort by an integer key. -/
def sortByKeyDesc (key : α → Int) (l : List α) : List α :=
  List.insertionSort (byKeyDesc key) l

/-! Data model (types.rs). -/

/-- The Workout record (types.rs): start in UTC milliseconds, optional
duration in milliseconds, free-text provenance tag. -/
structure Workout where
  start : Int
  duration : Option Int
  source : String
deriving DecidableEq, Repr

/-- Model of Rust `str::starts_with` on string literals. -/
def strStartsWith (s p : String) : Bool := p.data.isPrefixOf s.data

/-! Database side (database.rs). The table BASE_ACTIVITY_SUMMARY is
hardcoded; a row carries the START_TIME / END_TIME / ACTIVITY_KIND
cells, which SQLite hands over as 64-bit integers. The remaining
columns (ids, coordinates, blobs) are read and passed through untouched
and play no role in any claim, so they are not carried here. -/

/-- One row of BASE_ACTIVITY_SUMMARY as read by
`read_base_activity_summary`. -/
structure DbRow where
  start_ms : Int
  end_ms : Int
  activity_kind : Int
deriving DecidableEq, Repr

/-- Model of `i32::try_from(v).unwrap_or(i32::MAX)`. -/
def i32OfI64 (v : Int) : Int :=
  if -2147483648 ≤ v ∧ v ≤ 2147483647 then v else 2147483647

/-- The fields of WorkoutSummary that the claims touch. -/
structure WorkoutSummaryM where
  start : Int
  end_ : Int
  activity_kind : Int
deriving DecidableEq, Repr

/-- Per-row conversion in the loop of `read_base_activity_summary`
(database.rs lines 68-137): both the start and the end cell go through
`Utc.timestamp_millis_opt(..).single()`; a `None` on either one drops
the row (`continue`). The ACTIVITY_KIND cell is narrowed to i32 with
saturation. -/
def processRow (r : DbRow) : Option WorkoutSummaryM :=
  match timestampMillisOpt r.start_ms, timestampMillisOpt r.end_ms with
  | some s, some e => some ⟨s, e, i32OfI64 r.activity_kind⟩
  | _, _ => none

/-- Model of `read_base_activity_summary` restricted to the rows: the
query orders rows by START_TIME descending, then the loop converts each
row, dropping the ones `processRow` rejects. -/
def readBaseActivitySummaryRows (rows : List DbRow) : List WorkoutSummaryM :=
  (sortByKeyDesc DbRow.start_ms rows).filterMap processRow

/-- Model of `collect_from_db` (database.rs lines 10-24): each summary
becomes a Workout whose duration is `end - start` when `end > start`
and absent otherwise, tagged with the fixed db source string. -/
def collectFromDbRows (rows : List DbRow) : List Workout :=
  (readBaseActivitySummaryRows rows).map fun s =>
    { start := s.start
      duration := if s.start < s.end_ then some (s.end_ - s.start) else none
      source := "db:BASE_ACTIVITY_SUMMARY kind=" ++ toString s.activity_kind }

/-- The SQLite database file of the export: whether the connection can
be opened, the catalog (table names), and the rows of
BASE_ACTIVITY_SUMMARY when that table is present. -/
structure DbFile where
  openable : Bool
  tables : List String
  rows : List DbRow

/-- Model of `read_base_activity_summary` / `collect_from_db` at the
export level (database.rs lines 26-61): a missing database file yields
the empty list; a connection failure is a terminal error; a database
without the BASE_ACTIVITY_SUMMARY table is a terminal error
(`anyhow::bail!`); otherwise the rows are extracted. -/
def collectFromDbM : Option DbFile → Except String (List Workout)
  | none => .ok []
  | some f =>
    if !f.openable then .error "Opening SQLite DB"
    else if "BASE_ACTIVITY_SUMMARY" ∈ f.tables then .ok (collectFromDbRows f.rows)
    else .error "SQLite DB does not contain BASE_ACTIVITY_SUMMARY."

/-- The table selection the source actually performs, lifted to a
catalog of (table name, column names) pairs: `table_exists` is queried
for the fixed name BASE_ACTIVITY_SUMMARY (database.rs lines 39-41,
142-147); column names are never inspected, and no other table is ever
chosen. -/
def selectWorkoutTable (catalog : List (String × List String)) : Option String :=
  if catalog.any (fun t => t.1 = "BASE_ACTIVITY_SUMMARY") then
    some "BASE_ACTIVITY_SUMMARY"
  else none

/-- Modelled from the spec: the start-cell unit inference by magnitude
thresholds demanded by section 4.5 (nanoseconds above 1e18,
microseconds above 1e15, milliseconds above 1e12, else seconds),
normalised to milliseconds. This definition follows the words of the
spec; the source has no counterpart for it. -/
def specInferredStartMs (v : Int) : Int :=
  if 10 ^ 18 < v then Int.tdiv v 1000000
  else if 10 ^ 15 < v then Int.tdiv v 1000
  else if 10 ^ 12 < v then v
  else v * 1000

/-! GPX side (gpx.rs). A track file is modelled as the stream of
quick-xml events its bytes produce: start tags with their attribute
list, end tags, trimmed text nodes, and a scanning error event (after
which quick-xml would keep returning errors, so processing never looks
past it). Well-formedness checking (matching tag names) happens inside
quick-xml; a violation surfaces here as a parseFail event. -/

/-- One quick-xml event. -/
inductive XmlEvent where
  | tagOpen (name : String) (attrs : List (String × String))
  | tagClose (name : String)
  | text (s : String)
  | parseFail (msg : String)
deriving DecidableEq, Repr

/-- Scanner state of `duration_from_gpx`. -/
structure DurState where
  expecting_time_text : Bool
  min_t : Option Int
  max_t : Option Int
  time_count : Nat
deriving DecidableEq, Repr

/-- Initial duration-scanner state. -/
def durInit : DurState := ⟨false, none, none, 0⟩

/-- Running minimum update (`min_t.map_or(dt, |cur| cur.min(dt))`). -/
def optMin (a : Option Int) (t : Int) : Int :=
  match a with
  | none => t
  | some c => min c t

/-- Running maximum update (`max_t.map_or(dt, |cur| cur.max(dt))`). -/
def optMax (a : Option Int) (t : Int) : Int :=
  match a with
  | none => t
  | some c => max c t

/-- One step of the duration scanner (gpx.rs lines 112-146), over the
RFC3339 parse function `pt` standing for chrono. A scanning error
returns `none`, reflecting the early `return Ok(None)`. -/
def durStep (pt : String → Option Int) (st : DurState) : XmlEvent → Option DurState
  | .tagOpen n _ =>
    some (if n = "time" then { st with expecting_time_text := true } else st)
  | .tagClose n =>
    some (if n = "time" then { st with expecting_time_text := false } else st)
  | .text s =>
    some
      (match (if st.expecting_time_text then pt s else none) with
      | some dt =>
        { st with
          time_count := st.time_count + 1
          min_t := some (optMin st.min_t dt)
          max_t := some (optMax st.max_t dt) }
      | none => st)
  | .parseFail _ => none

/-- The duration-scanner loop. -/
def durRun (pt : String → Option Int) (st : DurState) : List XmlEvent → Option DurState
  | [] => some st
  | e :: rest =>
    match durStep pt st e with
    | none => none
    | some st' => durRun pt st' rest

/-- Final step of the duration scan: `max - min` when both extrema
exist and `max > min`, otherwise unknown. -/
def durFinish (st : DurState) : Option Int :=
  match st.min_t, st.max_t with
  | some a, some b => if a < b then some (b - a) else none
  | _, _ => none

/-- Result of the duration scan over an event stream; a scanning error
yields unknown. -/
def durationFromEvents (pt : String → Option Int) (evs : List XmlEvent) : Option Int :=
  match durRun pt durInit evs with
  | none => none
  | some st => durFinish st

/-- A track file: whether reading its bytes succeeds, whether the byte
content is empty, and the event stream its bytes scan to. -/
structure GpxFileM where
  readOk : Bool
  isEmpty : Bool
  events : List XmlEvent

/-- Model of `duration_from_gpx` (gpx.rs lines 93-157): a read failure
propagates as an error (the `?` on `fs::read`); empty bytes yield
`Ok(None)`; otherwise the stream is scanned. -/
def duration_from_gpx (pt : String → Option Int) (f : GpxFileM) : Except String (Option Int) :=
  if !f.readOk then .error "reading file"
  else if f.isEmpty then .ok none
  else .ok (durationFromEvents pt f.events)

/-- A GPX point (types.rs GpxPoint), parametric in the type `F` of
parsed f64 coordinate values, on which the source never computes. -/
structure GpxPointM (F : Type) where
  idx : Int
  t : Int
  lat : F
  lon : F
  ele : Option F
deriving DecidableEq, Repr

/-- Point-mode scanner state (gpx.rs GpxState). -/
structure GpxStateM (F : Type) where
  in_trkpt : Bool
  in_time : Bool
  in_ele : Bool
  cur_lat : Option F
  cur_lon : Option F
  cur_time : Option Int
  cur_ele : Option F
  idx : Int
deriving DecidableEq, Repr

/-- Initial point-mode state (GpxState::default()). -/
def gpxInit {F : Type} : GpxStateM F := ⟨false, false, false, none, none, none, none, 0⟩

/-- The value of i32::MAX. -/
def i32Max : Int := 2147483647

/-- Model of `i32::saturating_add(1)` on a non-negative index. -/
def satSucc (k : Int) : Int := min (k + 1) i32Max

/-- Model of `parse_trkpt_lat_lon` (gpx.rs lines 276-294): scan the
attribute list in order; every `lat` (resp. `lon`) key overwrites the
current value with the parse result of its value, which may be a parse
failure. Attribute checks are disabled in the source, so duplicate keys
are iterated. `pf` stands for the f64 parser. -/
def parseTrkptLatLon (pf : String → Option F) (attrs : List (String × String)) :
    Option F × Option F :=
  attrs.foldl
    (fun acc a =>
      if a.1 = "lat" then (pf a.2, acc.2)
      else if a.1 = "lon" then (acc.1, pf a.2)
      else acc)
    (none, none)

/-- Model of `handle_gpx_start` (gpx.rs lines 206-230). -/
def handle_gpx_start (pf : String → Option F) (st : GpxStateM F)
    (name : String) (attrs : List (String × String)) : GpxStateM F :=
  if name = "trkpt" then
    let ll := parseTrkptLatLon pf attrs
    { st with
      in_trkpt := true, in_time := false, in_ele := false
      cur_lat := ll.1, cur_lon := ll.2, cur_time := none, cur_ele := none }
  else if name = "time" ∧ st.in_trkpt then { st with in_time := true }
  else if name = "ele" ∧ st.in_trkpt then { st with in_ele := true }
  else st

/-- Model of `handle_gpx_end` (gpx.rs lines 232-260): closing a trkpt
emits a point exactly when latitude, longitude and time are all
captured, then advances the index with saturation. The close handler
does not test `in_trkpt`. -/
def handle_gpx_end (st : GpxStateM F) (name : String) (out : List (GpxPointM F)) :
    GpxStateM F × List (GpxPointM F) :=
  if name = "time" then ({ st with in_time := false }, out)
  else if name = "ele" then ({ st with in_ele := false }, out)
  else if name = "trkpt" then
    match st.cur_lat, st.cur_lon, st.cur_time with
    | some la, some lo, some t =>
      ({ st with in_trkpt := false, idx := satSucc st.idx },
        out ++ [⟨st.idx, t, la, lo, st.cur_ele⟩])
    | _, _, _ => ({ st with in_trkpt := false }, out)
  else (st, out)

/-- Model of `handle_gpx_text` (gpx.rs lines 262-274): an `if` chain,
so a text node inside a time element that fails the RFC3339 parse still
falls through to the elevation branch. -/
def handle_gpx_text (pf : String → Option F) (pt : String → Option Int)
    (st : GpxStateM F) (s : String) : GpxStateM F :=
  match (if st.in_time then pt s else none) with
  | some t => { st with cur_time := some t }
  | none =>
    match (if st.in_ele then pf s else none) with
    | some v => { st with cur_ele := some v }
    | none => st

/-- The point-mode scanning loop of `parse_gpx_points`: a scanning
error is a terminal error (`anyhow::bail!`). -/
def gpxPointsRun (pf : String → Option F) (pt : String → Option Int)
    (st : GpxStateM F) (out : List (GpxPointM F)) :
    List XmlEvent → Except String (List (GpxPointM F))
  | [] => .ok out
  | .tagOpen n a :: rest => gpxPointsRun pf pt (handle_gpx_start pf st n a) out rest
  | .tagClose n :: rest =>
    let r := handle_gpx_end st n out
    gpxPointsRun pf pt r.1 r.2 rest
  | .text s :: rest => gpxPointsRun pf pt (handle_gpx_text pf pt st s) out rest
  | .parseFail m :: _ => .error ("GPX XML parse error: " ++ m)

/-- Model of `parse_gpx_points` (gpx.rs lines 159-190): a read failure
propagates (the `?` on `fs::read`); empty bytes yield an empty point
list; otherwise the stream is scanned from the default state. -/
def parse_gpx_points (pf : String → Option F) (pt : String → Option Int) :
    GpxFileM → Except String (List (GpxPointM F))
  | ⟨false, _, _⟩ => .error "reading file"
  | ⟨true, true, _⟩ => .ok []
  | ⟨true, false, events⟩ => gpxPointsRun pf pt gpxInit [] events

/-- One entry produced by the directory walk of `collect_from_gpx`. -/
structure FileEntryM where
  isFile : Bool
  name : String
  gpx : GpxFileM

/-- Splits a character list at every dot. -/
def splitOnDot : List Char → List (List Char)
  | [] => [[]]
  | c :: rest =>
    if c = '.' then [] :: splitOnDot rest
    else
      match splitOnDot rest with
      | [] => [[c]]
      | p :: ps => (c :: p) :: ps

/-- Model of Rust `Path::extension` on a plain file name: the part
after the last dot, none when there is no dot or when the only dot is
the leading one of a hidden file. -/
def extOf (name : String) : Option String :=
  match splitOnDot name.data with
  | [] => none
  | [_] => none
  | first :: rest =>
    if first = [] ∧ rest.length = 1 then none
    else (rest.getLast?).map fun l => ⟨l⟩

/-- The walk loop of `collect_from_gpx` (gpx.rs lines 29-83):
non-files and non-gpx extensions are skipped; a file name without the
timestamp pattern is counted and skipped; `duration_from_gpx` runs on
the rest, its error aborting the whole collection via `?`, its value
becoming the optional duration of a Workout tagged `gpx:<filename>`.
The diagnostic counters do not influence the result and are not
carried. -/
def collectGpxLoop (pt : String → Option Int) : List FileEntryM → Except String (List Workout)
  | [] => .ok []
  | e :: rest =>
    if !e.isFile then collectGpxLoop pt rest
    else if extOf e.name ≠ some "gpx" then collectGpxLoop pt rest
    else
      match parse_start_from_filename e.name with
      | none => collectGpxLoop pt rest
      | some start =>
        match duration_from_gpx pt e.gpx with
        | .error m => .error m
        | .ok dur =>
          match collectGpxLoop pt rest with
          | .error m => .error m
          | .ok ws => .ok ({ start := start, duration := dur, source := "gpx:" ++ e.name } :: ws)

/-- Model of `collect_from_gpx` (gpx.rs lines 12-91): a missing files
directory yields the empty list; otherwise the walk runs and the result
is sorted descending by start time. -/
def collect_from_gpx (pt : String → Option Int) :
    Option (List FileEntryM) → Except String (List Workout)
  | none => .ok []
  | some entries =>
    match collectGpxLoop pt entries with
    | .error m => .error m
    | .ok ws => .ok (sortByKeyDesc Workout.start ws)

/-! Merge engine (main.rs lines 918-953). The HashMap is modelled as an
association list with in-place replacement; since every surviving
bucket has a distinct start time, the final descending sort produces
the same list the source produces whatever the iteration order of the
map. -/

/-- Bucket key: `w.start.timestamp() / 60`. chrono `timestamp()` is the
floor of the millisecond value divided by 1000, and Rust i64 division
truncates toward zero. -/
def bucketKey (w : Workout) : Int := Int.tdiv (Int.fdiv w.start 1000) 60

/-- Model of `choose_better` (main.rs lines 943-953): `true` when the
challenger `b` should replace the incumbent `a`. -/
def choose_better (a b : Workout) : Bool :=
  match a.duration.isSome, b.duration.isSome with
  | false, true => true
  | true, false => false
  | true, true => strStartsWith b.source "db:" && !strStartsWith a.source "db:"
  | false, false => strStartsWith b.source "db:" && !strStartsWith a.source "db:"

/-- Lookup in the bucket map. -/
def mapFind (k : Int) : List (Int × Workout) → Option Workout
  | [] => none
  | p :: rest => if p.1 = k then some p.2 else mapFind k rest

/-- Insertion (with replacement) in the bucket map. -/
def mapInsert (k : Int) (w : Workout) : List (Int × Workout) → List (Int × Workout)
  | [] => [(k, w)]
  | p :: rest => if p.1 = k then (k, w) :: rest else p :: mapInsert k w rest

/-- One iteration of the bucket-filling loop of
`merge_by_start_minute`. -/
def mergeStep (acc : List (Int × Workout)) (w : Workout) : List (Int × Workout) :=
  match mapFind (bucketKey w) acc with
  | none => mapInsert (bucketKey w) w acc
  | some existing =>
    if choose_better existing w then mapInsert (bucketKey w) w acc else acc

/-- The part of the merge after the initial stable sort. -/
def mergeRest (sorted : List Workout) : List Workout :=
  sortByKeyDesc Workout.start ((sorted.foldl mergeStep []).map Prod.snd)

/-- Model of `merge_by_start_minute` (main.rs lines 918-941). -/
def merge_by_start_minute (ws : List Workout) : List Workout :=
  mergeRest (sortByKeyDesc Workout.start ws)

/-! Print-mode main flow (main.rs lines 156-217). -/

/-- The export directory: the optional files subdirectory with its
entries, and the optional SQLite database file. -/
structure ExportDirM where
  filesDir : Option (List FileEntryM)
  dbFile : Option DbFile

/-- Discriminates the error case of an Except value. -/
def isErr : Except ε α → Bool
  | .error _ => true
  | .ok _ => false

instance [DecidableEq ε] [DecidableEq α] : DecidableEq (Except ε α) := fun x y =>
  match x, y with
  | .error a, .error b =>
    if h : a = b then isTrue (by rw [h]) else isFalse (by intro hc; cases hc; exact h rfl)
  | .ok a, .ok b =>
    if h : a = b then isTrue (by rw [h]) else isFalse (by intro hc; cases hc; exact h rfl)
  | .error _, .ok _ => isFalse (by intro hc; cases hc)
  | .ok _, .error _ => isFalse (by intro hc; cases hc)

/-- Model of the print-mode path of `main` (main.rs lines 156-217): GPX
collection unless disabled, then database collection unless disabled,
each error propagating; the concatenation is merged, and an empty merge
result is a terminal error. -/
def mainPrint (pt : String → Option Int) (e : ExportDirM) (noGpx noDb : Bool) :
    Except String (List Workout) :=
  match (if noGpx then .ok [] else collect_from_gpx pt e.filesDir) with
  | .error m => .error m
  | .ok gpx =>
    match (if noDb then .ok [] else collectFromDbM e.dbFile) with
    | .error m => .error m
    | .ok db =>
      let merged := merge_by_start_minute (gpx ++ db)
      if merged.isEmpty then .error "No workouts found." else .ok merged

/-! Auxiliary notions used to state claims about the scanners. -/

/-- True when the stream holds no scanning-error event. -/
def noFailB : List XmlEvent → Bool
  | [] => true
  | .parseFail _ :: _ => false
  | _ :: rest => noFailB rest

/-- The valid time-stamped entries a stream contains: text nodes that
sit inside a time element and parse as date-times, in order. The flag
is the in-time-element state, initially false. -/
def collectTimes (pt : String → Option Int) : Bool → List XmlEvent → List Int
  | _, [] => []
  | b, .tagOpen n _ :: rest => collectTimes pt (if n = "time" then true else b) rest
  | b, .tagClose n :: rest => collectTimes pt (if n = "time" then false else b) rest
  | b, .text s :: rest =>
    match (if b then pt s else none) with
    | some t => t :: collectTimes pt b rest
    | none => collectTimes pt b rest
  | b, .parseFail _ :: rest => collectTimes pt b rest

/-- Left fold of the running-minimum update over a list. -/
def foldOptMin (a : Option Int) : List Int → Option Int
  | [] => a
  | t :: rest => foldOptMin (some (optMin a t)) rest

/-- Left fold of the running-maximum update over a list. -/
def foldOptMax (a : Option Int) : List Int → Option Int
  | [] => a
  | t :: rest => foldOptMax (some (optMax a t)) rest

/-- Minimum of a list of times (none when empty). -/
def minOf (l : List Int) : Option Int := foldOptMin none l

/-- Maximum of a list of times (none when empty). -/
def maxOf (l : List Int) : Option Int := foldOptMax none l

/-! Flat decomposition of a point-mode stream. A realizable
(well-formed) stream in which point elements are not nested splits into
trkpt segments: an attribute list and the inner events, separated by
inert chunks carrying no trkpt tag and no scanning error. -/

/-- True when no event of the chunk opens or closes a trkpt element and
none is a scanning error. -/
def inertB : List XmlEvent → Bool
  | [] => true
  | .tagOpen n _ :: rest => if n = "trkpt" then false else inertB rest
  | .tagClose n :: rest => if n = "trkpt" then false else inertB rest
  | .text _ :: rest => inertB rest
  | .parseFail _ :: _ => false

/-- One trkpt segment: the inert chunk preceding it, the attributes of
its opening tag, and its inner events. -/
structure TrkSeg where
  gap : List XmlEvent
  attrs : List (String × String)
  inner : List XmlEvent

/-- Reassembled event stream of a sequence of trkpt segments followed
by a trailing inert chunk. -/
def assemble (segs : List TrkSeg) (post : List XmlEvent) : List XmlEvent :=
  (segs.map fun s =>
    s.gap ++ [XmlEvent.tagOpen "trkpt" s.attrs] ++ s.inner ++ [XmlEvent.tagClose "trkpt"]).flatten
    ++ post

/-- True when every gap and every inner chunk of the segments is
inert. -/
def segsInert : List TrkSeg → Bool
  | [] => true
  | s :: rest => inertB s.gap && (inertB s.inner && segsInert rest)

/-- A point before index assignment. -/
structure PrePoint (F : Type) where
  t : Int
  lat : F
  lon : F
  ele : Option F
deriving DecidableEq, Repr

/-- The time/elevation capture state inside one point element. -/
structure TimeEleSt (F : Type) where
  in_time : Bool
  in_ele : Bool
  cur_time : Option Int
  cur_ele : Option F
deriving DecidableEq, Repr

/-- The time/elevation projection of a point-mode scanner state. -/
def teOf (st : GpxStateM F) : TimeEleSt F :=
  ⟨st.in_time, st.in_ele, st.cur_time, st.cur_ele⟩

/-- Replaces the time/elevation capture fields of a scanner state. -/
def withTE (st : GpxStateM F) (c : TimeEleSt F) : GpxStateM F :=
  { st with
    in_time := c.in_time, in_ele := c.in_ele
    cur_time := c.cur_time, cur_ele := c.cur_ele }

/-- One capture step inside a point element, mirroring the scanner
handlers on non-trkpt events under `in_trkpt = true`. -/
def innerStep (pf : String → Option F) (pt : String → Option Int)
    (s : TimeEleSt F) : XmlEvent → TimeEleSt F
  | .tagOpen n _ =>
    if n = "time" then { s with in_time := true }
    else if n = "ele" then { s with in_ele := true }
    else s
  | .tagClose n =>
    if n = "time" then { s with in_time := false }
    else if n = "ele" then { s with in_ele := false }
    else s
  | .text str =>
    match (if s.in_time then pt str else none) with
    | some t => { s with cur_time := some t }
    | none =>
      match (if s.in_ele then pf str else none) with
      | some v => { s with cur_ele := some v }
      | none => s
  | .parseFail _ => s

/-- Capture run over the inner events of a point element. -/
def capturedTE (pf : String → Option F) (pt : String → Option Int)
    (s : TimeEleSt F) : List XmlEvent → TimeEleSt F
  | [] => s
  | e :: rest => capturedTE pf pt (innerStep pf pt s e) rest

/-- The point a scanner state would emit on closing a trkpt element:
one exactly when latitude, longitude and time are all captured. -/
def emitSt (st : GpxStateM F) : Option (PrePoint F) :=
  match st.cur_lat, st.cur_lon, st.cur_time with
  | some la, some lo, some t => some ⟨t, la, lo, st.cur_ele⟩
  | _, _, _ => none

/-- What one point element emits: a point exactly when latitude and
longitude parse from the attributes and a time was captured inside;
elevation is optional. -/
def emitOf (pf : String → Option F) (pt : String → Option Int)
    (attrs : List (String × String)) (inner : List XmlEvent) : Option (PrePoint F) :=
  let ll := parseTrkptLatLon pf attrs
  let cap := capturedTE pf pt ⟨false, false, none, none⟩ inner
  match ll.1, ll.2, cap.cur_time with
  | some la, some lo, some t => some ⟨t, la, lo, cap.cur_ele⟩
  | _, _, _ => none

/-- Index assignment in emission order starting at k, with the i32
saturation of the scanner. -/
def withIdx (k : Int) : List (PrePoint F) → List (GpxPointM F)
  | [] => []
  | p :: rest => ⟨k, p.t, p.lat, p.lon, p.ele⟩ :: withIdx (satSucc k) rest

/-- The index sequence of n emissions starting at k, with i32
saturation. -/
def satRange (k : Int) : Nat → List Int
  | 0 => []
  | n + 1 => k :: satRange (satSucc k) n

/-! Concrete inputs for the point-index analysis. -/

/-- A one-point trkpt segment used to build large concrete streams. -/
def c7Seg : TrkSeg :=
  ⟨[], [("lat", "1"), ("lon", "2")],
    [XmlEvent.tagOpen "time" [], XmlEvent.text "1970-01-01T00:00:00Z",
     XmlEvent.tagClose "time"]⟩

/-- A track file holding 2^31 + 1 point elements. -/
def c7File : GpxFileM :=
  ⟨true, false, assemble (List.replicate 2147483649 c7Seg) []⟩

/-- The point list the scanner extracts from that file. -/
def c7Points : List (GpxPointM Int) :=
  (parse_gpx_points parseIntM parseRfc3339M c7File).toOption.getD []

/-! Helper lemmas. -/

/-- A string starting with the gpx tag does not start with the db tag. -/
theorem strStartsWith_gpx_not_db (s : String) (h : strStartsWith s "gpx:" = true) :
    strStartsWith s "db:" = false := by
  unfold strStartsWith at h ⊢
  rw [List.isPrefixOf_iff_prefix] at h
  by_contra hb
  rw [Bool.not_eq_false, List.isPrefixOf_iff_prefix] at hb
  obtain ⟨t1, ht1⟩ := h
  obtain ⟨t2, ht2⟩ := hb
  have hg4 : "gpx:".data = ['g', 'p', 'x', ':'] := by decide
  have hd3 : "db:".data = ['d', 'b', ':'] := by decide
  have hg : s.data.head? = some 'g' := by rw [← ht1, hg4]; rfl
  have hd : s.data.head? = some 'd' := by rw [← ht2, hd3]; rfl
  rw [hg] at hd
  cases hd

/-- The duration scanner aborts with `none` whenever the stream holds a
scanning error. -/
theorem durRun_fail (pt : String → Option Int) (m : String) (evs2 : List XmlEvent) :
    ∀ (evs : List XmlEvent) (st : DurState),
      durRun pt st (evs ++ XmlEvent.parseFail m :: evs2) = none := by
  intro evs
  induction evs with
  | nil => intro st; rfl
  | cons e rest ih =>
    intro st
    cases e <;> simp only [List.cons_append, durRun, durStep] <;> exact ih _

/-- A duration produced by the event scan is positive. -/
theorem durationFromEvents_pos (pt : String → Option Int) (evs : List XmlEvent) (d : Int)
    (h : durationFromEvents pt evs = some d) : 0 < d := by
  unfold durationFromEvents at h
  split at h
  · cases h
  · unfold durFinish at h
    split at h
    · split at h
      · cases h; omega
      · cases h
    · cases h

/-- A duration produced by `duration_from_gpx` is positive. -/
theorem duration_from_gpx_pos (pt : String → Option Int) (f : GpxFileM) (d : Int)
    (h : duration_from_gpx pt f = .ok (some d)) : 0 < d := by
  unfold duration_from_gpx at h
  split at h
  · cases h
  · split at h
    · cases h
    · injection h with h'
      exact durationFromEvents_pos pt f.events d h'

/-- Every workout of the gpx walk loop has an absent or positive
duration. -/
theorem collectGpxLoop_duration (pt : String → Option Int) :
    ∀ (entries : List FileEntryM) (l : List Workout),
      collectGpxLoop pt entries = .ok l →
      ∀ w ∈ l, w.duration = none ∨ ∃ d, w.duration = some d ∧ 0 < d := by
  intro entries
  induction entries with
  | nil =>
    intro l hl w hw
    cases hl
    cases hw
  | cons e rest ih =>
    intro l hl w hw
    unfold collectGpxLoop at hl
    split at hl
    · exact ih l hl w hw
    · split at hl
      · exact ih l hl w hw
      · split at hl
        · exact ih l hl w hw
        · rename_i start hstart
          split at hl
          · cases hl
          · rename_i dur hdur
            split at hl
            · cases hl
            · rename_i ws hws
              cases hl
              rw [List.mem_cons] at hw
              rcases hw with hw | hw
              · subst hw
                rcases dur with - | d
                · left; rfl
                · right
                  exact ⟨d, rfl, duration_from_gpx_pos pt e.gpx d hdur⟩
              · exact ih ws hws w hw

/-! Claim C1. -/

/-- C1 (counterexample): given a catalog holding the tables
sleep_samples (columns start, stop) and WorkoutSession (columns
startTime, endTime), the table selection of the code returns no
candidate at all — it only ever looks for the fixed name
BASE_ACTIVITY_SUMMARY — and in particular does not return
WorkoutSession as the claim demands. -/
theorem C1_counterexample :
    selectWorkoutTable
        [("sleep_samples", ["start", "stop"]), ("WorkoutSession", ["startTime", "endTime"])]
      = none ∧
    ¬ selectWorkoutTable
        [("sleep_samples", ["start", "stop"]), ("WorkoutSession", ["startTime", "endTime"])]
      = some "WorkoutSession" := by
  decide

/-- C1 (amended): the table selection is not schema-agnostic: for every
catalog it returns the fixed table BASE_ACTIVITY_SUMMARY when a table
of that name is present and nothing otherwise; column names play no
role and no other table is ever selected. -/
theorem C1_amended (catalog : List (String × List String)) (t : String) :
    selectWorkoutTable catalog = some t ↔
      t = "BASE_ACTIVITY_SUMMARY" ∧
        catalog.any (fun p => p.1 = "BASE_ACTIVITY_SUMMARY") = true := by
  unfold selectWorkoutTable
  split
  · rename_i h
    constructor
    · intro hc
      injection hc with hc
      refine ⟨hc.symm, ?_⟩
      simpa using h
    · intro hc
      rw [hc.1]
  · rename_i h
    constructor
    · intro hc
      cases hc
    · intro hc
      exact absurd (by simpa using hc.2) h

/-! Claim C2. -/

/-- C2 (counterexample): the claim demands that the epoch value 10^9,
being below 10^12, be interpreted as seconds, which normalises to
10^12 milliseconds; the code hands every epoch integer to
`Utc.timestamp_millis_opt` unchanged, so the row conversion keeps the
start at 10^9 milliseconds, a different instant. -/
theorem C2_counterexample :
    (processRow ⟨1000000000, 1000000000, 0⟩).map WorkoutSummaryM.start = some 1000000000 ∧
    specInferredStartMs 1000000000 = 1000000000000 ∧
    (1000000000 : Int) ≠ 1000000000000 := by
  constructor
  · decide
  · constructor
    · decide
    · decide

/-- C2 (amended): no unit inference by magnitude happens: every integer
epoch start (and end) value a kept row carries is interpreted as
milliseconds unconditionally, whatever its magnitude; values outside
the chrono-representable millisecond range drop the row. -/
theorem C2_amended (r : DbRow) (s : WorkoutSummaryM) (h : processRow r = some s) :
    s.start = r.start_ms ∧ s.end_ = r.end_ms := by
  unfold processRow at h
  rcases h1 : timestampMillisOpt r.start_ms with - | v1 <;> rw [h1] at h
  · cases h
  · rcases h2 : timestampMillisOpt r.end_ms with - | v2 <;> rw [h2] at h
    · cases h
    · unfold timestampMillisOpt at h1 h2
      split at h1 <;> cases h1
      split at h2 <;> cases h2
      cases h
      exact ⟨rfl, rfl⟩

/-- C2 (witness): the amended theorem applied at a concrete in-range
row. -/
theorem C2_amended_witness :
    (⟨7, 9, 3⟩ : WorkoutSummaryM).start = (⟨7, 9, 3⟩ : DbRow).start_ms ∧
    (⟨7, 9, 3⟩ : WorkoutSummaryM).end_ = (⟨7, 9, 3⟩ : DbRow).end_ms :=
  C2_amended ⟨7, 9, 3⟩ ⟨7, 9, 3⟩ (by decide)

/-! Claim C3. -/

/-- C3 (counterexample): the claim demands that a row with start epoch
-5 be dropped and that a row whose derived duration is 90000 seconds
(beyond 24 hours) be dropped; the code keeps both — it applies no floor
date, no future bound and no duration window. -/
theorem C3_counterexample :
    ¬ processRow ⟨-5, 5000000, 0⟩ = none ∧
    collectFromDbRows [⟨0, 90000000, 7⟩] =
      [{ start := 0, duration := some 90000000,
         source := "db:BASE_ACTIVITY_SUMMARY kind=7" }] := by
  constructor
  · decide
  · decide

/-- C3 (amended): a row is dropped exactly when its start or its end
millisecond value falls outside the chrono-representable range; no
floor-date, future-bound or duration-window check exists. In
particular a row with start epoch -5 is kept, a row with duration 90000
seconds is kept, and a row with duration 45 seconds is kept. -/
theorem C3_amended :
    (∀ r : DbRow, processRow r = none ↔
        (timestampMillisOpt r.start_ms = none ∨ timestampMillisOpt r.end_ms = none)) ∧
    ¬ processRow ⟨-5, 1000, 2⟩ = none ∧
    collectFromDbRows [⟨1000, 90001000, 2⟩] =
      [{ start := 1000, duration := some 90000000,
         source := "db:BASE_ACTIVITY_SUMMARY kind=2" }] ∧
    collectFromDbRows [⟨1000, 46000, 2⟩] =
      [{ start := 1000, duration := some 45000,
         source := "db:BASE_ACTIVITY_SUMMARY kind=2" }] := by
  refine ⟨?_, by decide, by decide, by decide⟩
  intro r
  rcases h1 : timestampMillisOpt r.start_ms with - | v1 <;>
    rcases h2 : timestampMillisOpt r.end_ms with - | v2 <;>
    simp [processRow, h1, h2]

/-! Claim C8. -/

/-- C8 (confirmed): a scanning error in duration mode yields an unknown
duration for the file rather than an error, wherever it occurs in the
stream; a zero-byte track file yields an unknown duration in duration
mode and zero points in point mode, in both cases without an error. -/
theorem C8_theorem :
    (∀ (pt : String → Option Int) (m : String) (evs evs2 : List XmlEvent),
        duration_from_gpx pt ⟨true, false, evs ++ XmlEvent.parseFail m :: evs2⟩ = .ok none) ∧
    (∀ pt : String → Option Int, duration_from_gpx pt ⟨true, true, []⟩ = .ok none) ∧
    (∀ (F : Type) (pf : String → Option F) (pt : String → Option Int),
        parse_gpx_points pf pt ⟨true, true, []⟩ = .ok []) := by
  refine ⟨?_, fun pt => rfl, fun F pf pt => rfl⟩
  intro pt m evs evs2
  unfold duration_from_gpx
  simp only [Bool.not_true, Bool.false_eq_true, if_false, if_true]
  unfold durationFromEvents
  rw [durRun_fail pt m evs2 evs durInit]

/-! Claim C10. -/

/-- C10 (confirmed): every workout either collector produces has an
absent duration or a strictly positive one: the database collector only
attaches `end - start` when `end > start`, and the track scanner only
returns `max - min` when `max > min`, so a zero or negative duration
never occurs. -/
theorem C10_theorem :
    (∀ (db : Option DbFile) (l : List Workout) (w : Workout),
        collectFromDbM db = .ok l → w ∈ l →
        w.duration = none ∨ ∃ d, w.duration = some d ∧ 0 < d) ∧
    (∀ (pt : String → Option Int) (fd : Option (List FileEntryM)) (l : List Workout)
        (w : Workout),
        collect_from_gpx pt fd = .ok l → w ∈ l →
        w.duration = none ∨ ∃ d, w.duration = some d ∧ 0 < d) := by
  constructor
  · intro db l w hdb hw
    rcases db with - | f
    · cases hdb
      cases hw
    · simp only [collectFromDbM] at hdb
      split at hdb
      · cases hdb
      · split at hdb
        case isFalse => cases hdb
        case isTrue =>
          injection hdb with hdb
          subst hdb
          rw [collectFromDbRows, List.mem_map] at hw
          obtain ⟨s, -, hs⟩ := hw
          by_cases hlt : s.start < s.end_
          · right
            refine ⟨s.end_ - s.start, ?_, by omega⟩
            rw [← hs]
            simp only [hlt, if_true]
          · left
            rw [← hs]
            simp only [hlt, if_false]
  · intro pt fd l w hg hw
    rcases fd with - | entries
    · cases hg
      cases hw
    · simp only [collect_from_gpx] at hg
      split at hg
      · cases hg
      · rename_i ws hws
        injection hg with hg
        subst hg
        rw [sortByKeyDesc, List.mem_insertionSort] at hw
        exact collectGpxLoop_duration pt entries ws hws w hw

/-- C10 (witness): the theorem applied to the concrete database holding
one row of 45 seconds. -/
theorem C10_theorem_witness :
    (collectFromDbM (some ⟨true, ["BASE_ACTIVITY_SUMMARY"], [⟨0, 45000, 1⟩]⟩) =
        .ok [{ start := 0, duration := some 45000,
               source := "db:BASE_ACTIVITY_SUMMARY kind=1" }]) ∧
    (({ start := 0, duration := some 45000,
        source := "db:BASE_ACTIVITY_SUMMARY kind=1" } : Workout).duration = none ∨
      ∃ d, ({ start := 0, duration := some 45000,
              source := "db:BASE_ACTIVITY_SUMMARY kind=1" } : Workout).duration = some d ∧
        0 < d) :=
  ⟨by decide,
    C10_theorem.1 (some ⟨true, ["BASE_ACTIVITY_SUMMARY"], [⟨0, 45000, 1⟩]⟩)
      [{ start := 0, duration := some 45000, source := "db:BASE_ACTIVITY_SUMMARY kind=1" }]
      { start := 0, duration := some 45000, source := "db:BASE_ACTIVITY_SUMMARY kind=1" }
      (by decide) (by decide)⟩

/-! Merge computation lemmas. -/

/-- Inserting the first workout into the empty bucket map. -/
theorem mergeStep_nil (w : Workout) : mergeStep [] w = [(bucketKey w, w)] := rfl

/-- Inserting into a one-entry map whose key already matches: the
comparator decides. -/
theorem mergeStep_pairHit (k : Int) (x w : Workout) (hk : k = bucketKey w) :
    mergeStep [(k, x)] w =
      if choose_better x w then [(bucketKey w, w)] else [(k, x)] := by
  subst hk
  simp [mergeStep, mapFind, mapInsert]

/-- The stable descending sort of a pair. -/
theorem sortByKeyDesc_pair (key : α → Int) (x y : α) :
    sortByKeyDesc key [x, y] = if key y ≤ key x then [x, y] else [y, x] := rfl

/-- The sort of a singleton. -/
theorem sortByKeyDesc_single (key : α → Int) (x : α) :
    sortByKeyDesc key [x] = [x] := rfl

/-! Claim C4. -/

/-- C4 (counterexample): two workouts with start times 10 seconds
apart, both with known durations, one db-tagged and one gpx-tagged, for
which the merge keeps both records: 55 s and 65 s past the epoch fall
into different minute buckets, so no deduplication happens and the
result has two elements, not one. -/
theorem C4_counterexample :
    (merge_by_start_minute
        [⟨65000, some 60000, "gpx:a.gpx"⟩,
         ⟨55000, some 60000, "db:BASE_ACTIVITY_SUMMARY kind=1"⟩]).length ≠ 1 := by
  decide

/-- C4 (amended): for every pair of workouts whose start times are 10
seconds apart and fall into the same minute bucket, both with known
durations, one db-tagged and the other gpx-tagged, merging the
two-element list in either order returns exactly the db-tagged
record. -/
theorem C4_amended (a b : Workout)
    (hk : bucketKey a = bucketKey b)
    (hd : a.start - b.start = 10000 ∨ b.start - a.start = 10000)
    (ha : a.duration.isSome = true) (hb : b.duration.isSome = true)
    (hadb : strStartsWith a.source "db:" = true)
    (hbgpx : strStartsWith b.source "gpx:" = true) :
    merge_by_start_minute [a, b] = [a] ∧ merge_by_start_minute [b, a] = [a] := by
  have hbdb : strStartsWith b.source "db:" = false := strStartsWith_gpx_not_db _ hbgpx
  have hcb_ab : choose_better a b = false := by
    unfold choose_better
    rw [ha, hb]
    simp [hbdb]
  have hcb_ba : choose_better b a = true := by
    unfold choose_better
    rw [ha, hb]
    simp [hadb, hbdb]
  rcases hd with hd | hd
  · have h1 : b.start ≤ a.start := by omega
    have h2 : ¬ a.start ≤ b.start := by omega
    constructor
    · rw [merge_by_start_minute, sortByKeyDesc_pair, if_pos h1, mergeRest]
      rw [show List.foldl mergeStep [] [a, b] = mergeStep (mergeStep [] a) b from rfl]
      rw [mergeStep_nil, mergeStep_pairHit (bucketKey a) a b hk, hcb_ab]
      simp [sortByKeyDesc_single]
    · rw [merge_by_start_minute, sortByKeyDesc_pair, if_neg h2, mergeRest]
      rw [show List.foldl mergeStep [] [a, b] = mergeStep (mergeStep [] a) b from rfl]
      rw [mergeStep_nil, mergeStep_pairHit (bucketKey a) a b hk, hcb_ab]
      simp [sortByKeyDesc_single]
  · have h1 : a.start ≤ b.start := by omega
    have h2 : ¬ b.start ≤ a.start := by omega
    constructor
    · rw [merge_by_start_minute, sortByKeyDesc_pair, if_neg h2, mergeRest]
      rw [show List.foldl mergeStep [] [b, a] = mergeStep (mergeStep [] b) a from rfl]
      rw [mergeStep_nil, mergeStep_pairHit (bucketKey b) b a hk.symm, hcb_ba]
      simp [sortByKeyDesc_single]
    · rw [merge_by_start_minute, sortByKeyDesc_pair, if_pos h1, mergeRest]
      rw [show List.foldl mergeStep [] [b, a] = mergeStep (mergeStep [] b) a from rfl]
      rw [mergeStep_nil, mergeStep_pairHit (bucketKey b) b a hk.symm, hcb_ba]
      simp [sortByKeyDesc_single]

/-- C4 (witness): the amended theorem applied to a concrete same-bucket
pair 10 seconds apart. -/
theorem C4_amended_witness :
    merge_by_start_minute
        [⟨60000, some 1000, "db:BASE_ACTIVITY_SUMMARY kind=1"⟩,
         ⟨70000, some 2000, "gpx:a.gpx"⟩] =
      [⟨60000, some 1000, "db:BASE_ACTIVITY_SUMMARY kind=1"⟩] ∧
    merge_by_start_minute
        [⟨70000, some 2000, "gpx:a.gpx"⟩,
         ⟨60000, some 1000, "db:BASE_ACTIVITY_SUMMARY kind=1"⟩] =
      [⟨60000, some 1000, "db:BASE_ACTIVITY_SUMMARY kind=1"⟩] :=
  C4_amended ⟨60000, some 1000, "db:BASE_ACTIVITY_SUMMARY kind=1"⟩ ⟨70000, some 2000, "gpx:a.gpx"⟩
    (by decide) (by decide) (by decide) (by decide) (by decide) (by decide)

/-! Claim C5. -/

/-- C5 (counterexample): the merge is not invariant under permutation
of its input list: two workouts sharing the same start time, neither
with a duration and neither db-tagged, tie in the comparator, so the
first of the stable sort survives — swapping the input order swaps the
survivor. -/
theorem C5_counterexample :
    List.Perm [(⟨0, none, "a"⟩ : Workout), ⟨0, none, "b"⟩]
      [⟨0, none, "b"⟩, ⟨0, none, "a"⟩] ∧
    merge_by_start_minute [(⟨0, none, "a"⟩ : Workout), ⟨0, none, "b"⟩] ≠
      merge_by_start_minute [⟨0, none, "b"⟩, ⟨0, none, "a"⟩] := by
  constructor
  · decide
  · decide

/-- C5 (amended): the merge is a pure deterministic function of its
input multiset provided no two input workouts share a start time: every
permutation of the input yields the same output list, because the
stable sort of lists with pairwise-distinct start times is
permutation-invariant. -/
theorem C5_amended (l l2 : List Workout) (hp : l.Perm l2)
    (hnd : (l.map Workout.start).Nodup) :
    merge_by_start_minute l = merge_by_start_minute l2 := by
  have hr : ∀ m : List Workout, m.Perm l →
      List.Pairwise (fun a b : Workout => b.start < a.start)
        (sortByKeyDesc Workout.start m) := by
    intro m hm
    have hs : List.Sorted (byKeyDesc Workout.start) (sortByKeyDesc Workout.start m) :=
      List.sorted_insertionSort _ m
    have hperm : (sortByKeyDesc Workout.start m).Perm m := List.perm_insertionSort _ m
    have hnd2 : ((sortByKeyDesc Workout.start m).map Workout.start).Nodup :=
      ((hperm.trans hm).map Workout.start).nodup_iff.mpr hnd
    have hne : List.Pairwise (fun a b : Workout => a.start ≠ b.start)
        (sortByKeyDesc Workout.start m) := List.pairwise_map.mp hnd2
    exact (hs.and hne).imp fun hab => lt_of_le_of_ne hab.1 (Ne.symm hab.2)
  haveI : IsAntisymm Workout (fun a b : Workout => b.start < a.start) :=
    ⟨fun a b h1 h2 => absurd (lt_trans h1 h2) (lt_irrefl _)⟩
  have key : sortByKeyDesc Workout.start l = sortByKeyDesc Workout.start l2 := by
    refine List.eq_of_perm_of_sorted ?_ (hr l (List.Perm.refl l)) (hr l2 hp.symm)
    exact (List.perm_insertionSort _ l).trans (hp.trans (List.perm_insertionSort _ l2).symm)
  rw [merge_by_start_minute, merge_by_start_minute, key]

/-- C5 (witness): the amended theorem applied to a concrete swapped
pair with distinct start times. -/
theorem C5_amended_witness :
    merge_by_start_minute [(⟨0, none, "a"⟩ : Workout), ⟨60000, none, "b"⟩] =
      merge_by_start_minute [(⟨60000, none, "b"⟩ : Workout), ⟨0, none, "a"⟩] :=
  C5_amended [(⟨0, none, "a"⟩ : Workout), ⟨60000, none, "b"⟩]
    [(⟨60000, none, "b"⟩ : Workout), ⟨0, none, "a"⟩] (by decide) (by decide)

/-! Duration-scan analysis. -/

/-- Folding the running minimum from a seeded value computes the foldl
of min. -/
theorem foldOptMin_some (l : List Int) : ∀ c : Int, foldOptMin (some c) l = some (l.foldl min c) := by
  induction l with
  | nil => intro c; rfl
  | cons t r ih => intro c; simpa [foldOptMin, optMin] using ih (min c t)

/-- Folding the running maximum from a seeded value computes the foldl
of max. -/
theorem foldOptMax_some (l : List Int) : ∀ c : Int, foldOptMax (some c) l = some (l.foldl max c) := by
  induction l with
  | nil => intro c; rfl
  | cons t r ih => intro c; simpa [foldOptMax, optMax] using ih (max c t)

/-- The minimum of a nonempty list. -/
theorem minOf_cons (t : Int) (r : List Int) : minOf (t :: r) = some (r.foldl min t) := by
  simp [minOf, foldOptMin, optMin, foldOptMin_some]

/-- The maximum of a nonempty list. -/
theorem maxOf_cons (t : Int) (r : List Int) : maxOf (t :: r) = some (r.foldl max t) := by
  simp [maxOf, foldOptMax, optMax, foldOptMax_some]

/-- The minimum is absent exactly for the empty list. -/
theorem minOf_eq_none (l : List Int) : minOf l = none ↔ l = [] := by
  cases l with
  | nil => simp [minOf, foldOptMin]
  | cons t r => simp [minOf_cons]

/-- The min foldl is below its seed. -/
theorem foldl_min_le_init (l : List Int) : ∀ c : Int, l.foldl min c ≤ c := by
  induction l with
  | nil => intro c; exact le_refl c
  | cons t r ih => intro c; exact le_trans (ih (min c t)) (min_le_left c t)

/-- The min foldl is below every member. -/
theorem foldl_min_le_mem (l : List Int) : ∀ (c x : Int), x ∈ l → l.foldl min c ≤ x := by
  induction l with
  | nil => intro c x hx; cases hx
  | cons t r ih =>
    intro c x hx
    rw [List.mem_cons] at hx
    rcases hx with hx | hx
    · subst hx
      exact le_trans (foldl_min_le_init r (min c x)) (min_le_right c x)
    · exact ih (min c t) x hx

/-- The value `minOf` returns bounds every entry from below. -/
theorem minOf_le (l : List Int) (a : Int) (h : minOf l = some a) : ∀ x ∈ l, a ≤ x := by
  cases l with
  | nil => cases h
  | cons t r =>
    rw [minOf_cons] at h
    injection h with h
    subst h
    intro x hx
    rw [List.mem_cons] at hx
    rcases hx with hx | hx
    · subst hx
      exact foldl_min_le_init r x
    · exact foldl_min_le_mem r t x hx

/-- The max foldl is above its seed. -/
theorem foldl_le_max_init (l : List Int) : ∀ c : Int, c ≤ l.foldl max c := by
  induction l with
  | nil => intro c; exact le_refl c
  | cons t r ih => intro c; exact le_trans (le_max_left c t) (ih (max c t))

/-- The max foldl is above every member. -/
theorem foldl_le_max_mem (l : List Int) : ∀ (c x : Int), x ∈ l → x ≤ l.foldl max c := by
  induction l with
  | nil => intro c x hx; cases hx
  | cons t r ih =>
    intro c x hx
    rw [List.mem_cons] at hx
    rcases hx with hx | hx
    · subst hx
      exact le_trans (le_max_right c x) (foldl_le_max_init r (max c x))
    · exact ih (max c t) x hx

/-- The value `maxOf` returns bounds every entry from above. -/
theorem maxOf_ge (l : List Int) (b : Int) (h : maxOf l = some b) : ∀ x ∈ l, x ≤ b := by
  cases l with
  | nil => cases h
  | cons t r =>
    rw [maxOf_cons] at h
    injection h with h
    subst h
    intro x hx
    rw [List.mem_cons] at hx
    rcases hx with hx | hx
    · subst hx
      exact foldl_le_max_init r x
    · exact foldl_le_max_mem r t x hx

/-- On an error-free stream, the duration scanner succeeds and its
running extrema are exactly the folds of the collected valid
time-stamped entries. -/
theorem durRun_noFail (pt : String → Option Int) :
    ∀ (evs : List XmlEvent) (st : DurState), noFailB evs = true →
      ∃ st2, durRun pt st evs = some st2 ∧
        st2.min_t = foldOptMin st.min_t (collectTimes pt st.expecting_time_text evs) ∧
        st2.max_t = foldOptMax st.max_t (collectTimes pt st.expecting_time_text evs) := by
  intro evs
  induction evs with
  | nil => exact fun st _ => ⟨st, rfl, rfl, rfl⟩
  | cons e rest ih =>
    intro st h
    cases e with
    | tagOpen n attrs =>
      by_cases hn : n = "time"
      · obtain ⟨st2, h1, h2, h3⟩ := ih { st with expecting_time_text := true } h
        exact ⟨st2, by simpa [durRun, durStep, hn] using h1,
          by simpa [collectTimes, hn] using h2, by simpa [collectTimes, hn] using h3⟩
      · obtain ⟨st2, h1, h2, h3⟩ := ih st h
        exact ⟨st2, by simpa [durRun, durStep, hn] using h1,
          by simpa [collectTimes, hn] using h2, by simpa [collectTimes, hn] using h3⟩
    | tagClose n =>
      by_cases hn : n = "time"
      · obtain ⟨st2, h1, h2, h3⟩ := ih { st with expecting_time_text := false } h
        exact ⟨st2, by simpa [durRun, durStep, hn] using h1,
          by simpa [collectTimes, hn] using h2, by simpa [collectTimes, hn] using h3⟩
      · obtain ⟨st2, h1, h2, h3⟩ := ih st h
        exact ⟨st2, by simpa [durRun, durStep, hn] using h1,
          by simpa [collectTimes, hn] using h2, by simpa [collectTimes, hn] using h3⟩
    | text s =>
      rcases hb : st.expecting_time_text with - | -
      · obtain ⟨st2, h1, h2, h3⟩ := ih st h
        exact ⟨st2, by simpa [durRun, durStep, hb] using h1,
          by simpa [collectTimes, hb] using h2, by simpa [collectTimes, hb] using h3⟩
      · rcases hps : pt s with - | dt
        · obtain ⟨st2, h1, h2, h3⟩ := ih st h
          exact ⟨st2, by simpa [durRun, durStep, hb, hps] using h1,
            by simpa [collectTimes, hb, hps] using h2,
            by simpa [collectTimes, hb, hps] using h3⟩
        · obtain ⟨st2, h1, h2, h3⟩ :=
            ih { st with
                  time_count := st.time_count + 1
                  min_t := some (optMin st.min_t dt)
                  max_t := some (optMax st.max_t dt) } h
          exact ⟨st2, by simpa [durRun, durStep, hb, hps] using h1,
            by simpa [collectTimes, foldOptMin, hb, hps] using h2,
            by simpa [collectTimes, foldOptMax, hb, hps] using h3⟩
    | parseFail m => simp [noFailB] at h

/-! Claim C6. -/

/-- C6 (counterexample): a track file whose stream carries two valid
time-stamped entries 0 and 5000 (maximum exceeds minimum) followed by a
scanning error: the claim demands the duration 5000, the code returns
unknown. -/
theorem C6_counterexample :
    collectTimes parseRfc3339M false
        [XmlEvent.tagOpen "time" [], XmlEvent.text "1970-01-01T00:00:00Z",
         XmlEvent.tagClose "time", XmlEvent.tagOpen "time" [],
         XmlEvent.text "1970-01-01T00:00:05Z", XmlEvent.tagClose "time",
         XmlEvent.parseFail "mismatched tag"] = [0, 5000] ∧
    ¬ durationFromEvents parseRfc3339M
        [XmlEvent.tagOpen "time" [], XmlEvent.text "1970-01-01T00:00:00Z",
         XmlEvent.tagClose "time", XmlEvent.tagOpen "time" [],
         XmlEvent.text "1970-01-01T00:00:05Z", XmlEvent.tagClose "time",
         XmlEvent.parseFail "mismatched tag"] = some 5000 := by
  constructor
  · decide
  · decide

/-- C6 (amended): on every stream scanned without error, the returned
duration is exactly `max - min` of the valid time-stamped entries when
the maximum exceeds the minimum, and unknown (not an error) when there
are fewer than two valid entries or the maximum equals the minimum. -/
theorem C6_amended (pt : String → Option Int) (evs : List XmlEvent)
    (hnf : noFailB evs = true) :
    (∀ a b : Int, minOf (collectTimes pt false evs) = some a →
        maxOf (collectTimes pt false evs) = some b → a < b →
      durationFromEvents pt evs = some (b - a)) ∧
    ((collectTimes pt false evs).length < 2 ∨
        minOf (collectTimes pt false evs) = maxOf (collectTimes pt false evs) →
      durationFromEvents pt evs = none) := by
  obtain ⟨st2, h1, h2, h3⟩ := durRun_noFail pt evs durInit hnf
  have hval : durationFromEvents pt evs = durFinish st2 := by
    unfold durationFromEvents
    rw [h1]
  have h2m : st2.min_t = minOf (collectTimes pt false evs) := h2
  have h3m : st2.max_t = maxOf (collectTimes pt false evs) := h3
  constructor
  · intro a b ha hb hab
    rw [hval]
    unfold durFinish
    rw [h2m, ha, h3m, hb]
    simp [hab]
  · intro hcase
    rw [hval]
    unfold durFinish
    rcases hcts : collectTimes pt false evs with - | ⟨t, r⟩
    · rw [hcts] at h2m h3m
      rw [h2m, h3m]
      rfl
    · rw [hcts] at h2m h3m hcase
      rcases hcase with hlen | heq
      · have hr : r = [] := by
          cases r with
          | nil => rfl
          | cons x xs =>
            simp only [List.length_cons] at hlen
            omega
        subst hr
        rw [h2m, minOf_cons, h3m, maxOf_cons]
        simp
      · rcases hmin : minOf (t :: r) with - | a
        · rw [minOf_eq_none] at hmin
          cases hmin
        · have hmax : maxOf (t :: r) = some a := by rw [← heq, hmin]
          rw [h2m, hmin, h3m, hmax]
          simp

/-- C6 (witness): the amended theorem applied to a concrete error-free
stream with entries 0 and 5000. -/
theorem C6_amended_witness :
    durationFromEvents parseRfc3339M
        [XmlEvent.tagOpen "time" [], XmlEvent.text "1970-01-01T00:00:00Z",
         XmlEvent.tagClose "time", XmlEvent.tagOpen "time" [],
         XmlEvent.text "1970-01-01T00:00:05Z", XmlEvent.tagClose "time"] = some 5000 :=
  (C6_amended parseRfc3339M
      [XmlEvent.tagOpen "time" [], XmlEvent.text "1970-01-01T00:00:00Z",
       XmlEvent.tagClose "time", XmlEvent.tagOpen "time" [],
       XmlEvent.text "1970-01-01T00:00:05Z", XmlEvent.tagClose "time"]
      (by decide)).1 0 5000 (by decide) (by decide) (by decide)

/-! Claim C9. -/

/-- C9 (counterexample): an export whose catalog opens and can be
inspected, whose database merely lacks the BASE_ACTIVITY_SUMMARY table,
and whose files directory holds a valid track file: the code aborts
with the missing-table error even though track files were found, while
the claim allows an abort on a missing table only when no track files
exist. -/
theorem C9_counterexample :
    mainPrint parseRfc3339M
        ⟨some [⟨true, "track-2026-01-29T08_25_59+01_00.gpx", ⟨true, false, []⟩⟩],
         some ⟨true, ["sleep_samples"], []⟩⟩ false false
      = .error "SQLite DB does not contain BASE_ACTIVITY_SUMMARY." ∧
    (collect_from_gpx parseRfc3339M
        (some [⟨true, "track-2026-01-29T08_25_59+01_00.gpx",
          ⟨true, false, []⟩⟩])).toOption.getD [] ≠ [] := by
  constructor
  · decide
  · decide

/-- C9 (amended): the print run aborts exactly when the GPX collection
aborts (a track file whose bytes cannot be read), or the database
collection aborts, or both succeed and the merged result is empty; the
database collection aborts exactly when the database file exists and
either cannot be opened or lacks the BASE_ACTIVITY_SUMMARY table —
even when track files were found. Per-row drops never abort it. -/
theorem C9_amended :
    (∀ (pt : String → Option Int) (e : ExportDirM),
        isErr (mainPrint pt e false false) =
          (isErr (collect_from_gpx pt e.filesDir) ||
            isErr (collectFromDbM e.dbFile) ||
            (merge_by_start_minute
              ((collect_from_gpx pt e.filesDir).toOption.getD [] ++
                (collectFromDbM e.dbFile).toOption.getD [])).isEmpty)) ∧
    (∀ f : DbFile, isErr (collectFromDbM (some f)) = true ↔
        (f.openable = false ∨ "BASE_ACTIVITY_SUMMARY" ∉ f.tables)) ∧
    isErr (collectFromDbM none) = false := by
  refine ⟨?_, ?_, rfl⟩
  · intro pt e
    rcases hg : collect_from_gpx pt e.filesDir with m | gpx
    · simp [mainPrint, hg, isErr]
    · rcases hd : collectFromDbM e.dbFile with m2 | db
      · simp [mainPrint, hg, hd, isErr]
      · by_cases hm : (merge_by_start_minute (gpx ++ db)).isEmpty
        · simp [mainPrint, hg, hd, isErr, hm, Except.toOption]
        · simp [mainPrint, hg, hd, isErr, hm, Except.toOption]
  · intro f
    rcases ho : f.openable <;> by_cases hmem : "BASE_ACTIVITY_SUMMARY" ∈ f.tables <;>
      simp [collectFromDbM, isErr, ho, hmem]

/-! Point-mode scanner analysis. -/

/-- Projection of a replacement. -/
theorem teOf_withTE (st : GpxStateM F) (c : TimeEleSt F) : teOf (withTE st c) = c := rfl

/-- Replacing twice keeps the last replacement. -/
theorem withTE_withTE (st : GpxStateM F) (c c2 : TimeEleSt F) :
    withTE (withTE st c) c2 = withTE st c2 := rfl

/-- Replacing the capture fields by their own values changes nothing. -/
theorem withTE_teOf (st : GpxStateM F) : withTE st (teOf st) = st := rfl

/-- The conditions an inert event satisfies. -/
def inertEvent : XmlEvent → Prop
  | .tagOpen n _ => n ≠ "trkpt"
  | .tagClose n => n ≠ "trkpt"
  | .text _ => True
  | .parseFail _ => False

/-- Destructuring an inert chunk. -/
theorem inertB_cons (e : XmlEvent) (l : List XmlEvent) (h : inertB (e :: l) = true) :
    inertEvent e ∧ inertB l = true := by
  cases e with
  | tagOpen n a =>
    by_cases hc : n = "trkpt"
    · rw [inertB, if_pos hc] at h
      cases h
    · rw [inertB, if_neg hc] at h
      exact ⟨hc, h⟩
  | tagClose n =>
    by_cases hc : n = "trkpt"
    · rw [inertB, if_pos hc] at h
      cases h
    · rw [inertB, if_neg hc] at h
      exact ⟨hc, h⟩
  | text s => exact ⟨trivial, h⟩
  | parseFail m => cases h

/-- The text handler acts exactly on the capture fields. -/
theorem handle_gpx_text_eq (pf : String → Option F) (pt : String → Option Int)
    (st : GpxStateM F) (s : String) :
    handle_gpx_text pf pt st s =
      withTE st (innerStep pf pt (teOf st) (XmlEvent.text s)) := by
  unfold handle_gpx_text innerStep withTE teOf
  rcases h1 : (if st.in_time then pt s else none) with - | t
  · rcases h2 : (if st.in_ele then pf s else none) with - | v
    · simp [h1, h2]
    · simp [h1, h2]
  · simp [h1]

/-- Inside a point element, the open handler on a non-trkpt tag acts
exactly on the capture fields. -/
theorem handle_gpx_start_inner (pf : String → Option F) (pt : String → Option Int)
    (st : GpxStateM F) (n : String) (attrs : List (String × String))
    (hn : n ≠ "trkpt") (hst : st.in_trkpt = true) :
    handle_gpx_start pf st n attrs =
      withTE st (innerStep pf pt (teOf st) (XmlEvent.tagOpen n attrs)) := by
  unfold handle_gpx_start innerStep withTE teOf
  rw [if_neg hn]
  by_cases ht : n = "time"
  · simp [ht, hst]
  · by_cases he : n = "ele"
    · simp [ht, he, hst]
    · simp [ht, he]

/-- The close handler on a non-trkpt tag acts exactly on the capture
fields and emits nothing. -/
theorem handle_gpx_end_inner (pf : String → Option F) (pt : String → Option Int)
    (st : GpxStateM F) (n : String) (out : List (GpxPointM F)) (hn : n ≠ "trkpt") :
    handle_gpx_end st n out =
      (withTE st (innerStep pf pt (teOf st) (XmlEvent.tagClose n)), out) := by
  unfold handle_gpx_end innerStep withTE teOf
  by_cases ht : n = "time"
  · simp [ht]
  · by_cases he : n = "ele"
    · simp [ht, he]
    · simp [ht, he, hn]

/-- Outside a point element, the open handler on a non-trkpt tag does
nothing. -/
theorem handle_gpx_start_outside (pf : String → Option F) (st : GpxStateM F)
    (n : String) (attrs : List (String × String))
    (hn : n ≠ "trkpt") (hst : st.in_trkpt = false) :
    handle_gpx_start pf st n attrs = st := by
  unfold handle_gpx_start
  rw [if_neg hn]
  simp [hst]

/-- An inert chunk processed outside a point element changes neither
the output nor the index nor the outside-point mode. -/
theorem gpxRun_inert (pf : String → Option F) (pt : String → Option Int) :
    ∀ (l : List XmlEvent), inertB l = true →
      ∀ (st : GpxStateM F) (out : List (GpxPointM F)) (rest : List XmlEvent),
        st.in_trkpt = false →
        ∃ st2 : GpxStateM F, st2.in_trkpt = false ∧ st2.idx = st.idx ∧
          gpxPointsRun pf pt st out (l ++ rest) = gpxPointsRun pf pt st2 out rest := by
  intro l
  induction l with
  | nil => exact fun _ st out rest hst => ⟨st, hst, rfl, rfl⟩
  | cons e l ih =>
    intro h st out rest hst
    obtain ⟨he, hl⟩ := inertB_cons e l h
    cases e with
    | tagOpen n attrs =>
      obtain ⟨st2, a1, a2, a3⟩ := ih hl st out rest hst
      refine ⟨st2, a1, a2, ?_⟩
      calc gpxPointsRun pf pt st out ((XmlEvent.tagOpen n attrs :: l) ++ rest)
          = gpxPointsRun pf pt (handle_gpx_start pf st n attrs) out (l ++ rest) := rfl
        _ = gpxPointsRun pf pt st out (l ++ rest) := by
            rw [handle_gpx_start_outside pf st n attrs he hst]
        _ = gpxPointsRun pf pt st2 out rest := a3
    | tagClose n =>
      have hpair := handle_gpx_end_inner pf pt st n out he
      obtain ⟨st2, a1, a2, a3⟩ :=
        ih hl (withTE st (innerStep pf pt (teOf st) (XmlEvent.tagClose n))) out rest hst
      refine ⟨st2, a1, a2, ?_⟩
      calc gpxPointsRun pf pt st out ((XmlEvent.tagClose n :: l) ++ rest)
          = gpxPointsRun pf pt (handle_gpx_end st n out).1 (handle_gpx_end st n out).2
              (l ++ rest) := rfl
        _ = gpxPointsRun pf pt (withTE st (innerStep pf pt (teOf st) (XmlEvent.tagClose n)))
              out (l ++ rest) := by rw [hpair]
        _ = gpxPointsRun pf pt st2 out rest := a3
    | text s =>
      obtain ⟨st2, a1, a2, a3⟩ :=
        ih hl (withTE st (innerStep pf pt (teOf st) (XmlEvent.text s))) out rest hst
      refine ⟨st2, a1, a2, ?_⟩
      calc gpxPointsRun pf pt st out ((XmlEvent.text s :: l) ++ rest)
          = gpxPointsRun pf pt (handle_gpx_text pf pt st s) out (l ++ rest) := rfl
        _ = gpxPointsRun pf pt (withTE st (innerStep pf pt (teOf st) (XmlEvent.text s)))
              out (l ++ rest) := by rw [handle_gpx_text_eq]
        _ = gpxPointsRun pf pt st2 out rest := a3
    | parseFail m => cases he

/-- Inside a point element, an inert inner chunk updates exactly the
capture fields, through `capturedTE`, and emits nothing. -/
theorem gpxRun_inner (pf : String → Option F) (pt : String → Option Int) :
    ∀ (l : List XmlEvent), inertB l = true →
      ∀ (st : GpxStateM F) (out : List (GpxPointM F)) (rest : List XmlEvent),
        st.in_trkpt = true →
        gpxPointsRun pf pt st out (l ++ rest) =
          gpxPointsRun pf pt (withTE st (capturedTE pf pt (teOf st) l)) out rest := by
  intro l
  induction l with
  | nil =>
    intro _ st out rest _
    rw [show capturedTE pf pt (teOf st) [] = teOf st from rfl, withTE_teOf]
    rfl
  | cons e l ih =>
    intro h st out rest hst
    obtain ⟨he, hl⟩ := inertB_cons e l h
    have hcap : capturedTE pf pt (teOf st) (e :: l) =
        capturedTE pf pt (innerStep pf pt (teOf st) e) l := rfl
    have hmid : ∀ c : TimeEleSt F,
        gpxPointsRun pf pt (withTE st c) out (l ++ rest) =
          gpxPointsRun pf pt (withTE st (capturedTE pf pt c l)) out rest := by
      intro c
      have := ih hl (withTE st c) out rest hst
      rwa [teOf_withTE, withTE_withTE] at this
    cases e with
    | tagOpen n attrs =>
      calc gpxPointsRun pf pt st out ((XmlEvent.tagOpen n attrs :: l) ++ rest)
          = gpxPointsRun pf pt (handle_gpx_start pf st n attrs) out (l ++ rest) := rfl
        _ = gpxPointsRun pf pt
              (withTE st (innerStep pf pt (teOf st) (XmlEvent.tagOpen n attrs))) out
              (l ++ rest) := by rw [handle_gpx_start_inner pf pt st n attrs he hst]
        _ = gpxPointsRun pf pt
              (withTE st (capturedTE pf pt (teOf st) (XmlEvent.tagOpen n attrs :: l))) out
              rest := by rw [hcap]; exact hmid _
    | tagClose n =>
      calc gpxPointsRun pf pt st out ((XmlEvent.tagClose n :: l) ++ rest)
          = gpxPointsRun pf pt (handle_gpx_end st n out).1 (handle_gpx_end st n out).2
              (l ++ rest) := rfl
        _ = gpxPointsRun pf pt
              (withTE st (innerStep pf pt (teOf st) (XmlEvent.tagClose n))) out
              (l ++ rest) := by rw [handle_gpx_end_inner pf pt st n out he]
        _ = gpxPointsRun pf pt
              (withTE st (capturedTE pf pt (teOf st) (XmlEvent.tagClose n :: l))) out
              rest := by rw [hcap]; exact hmid _
    | text s =>
      calc gpxPointsRun pf pt st out ((XmlEvent.text s :: l) ++ rest)
          = gpxPointsRun pf pt (handle_gpx_text pf pt st s) out (l ++ rest) := rfl
        _ = gpxPointsRun pf pt
              (withTE st (innerStep pf pt (teOf st) (XmlEvent.text s))) out
              (l ++ rest) := by rw [handle_gpx_text_eq]
        _ = gpxPointsRun pf pt
              (withTE st (capturedTE pf pt (teOf st) (XmlEvent.text s :: l))) out
              rest := by rw [hcap]; exact hmid _
    | parseFail m => cases he

/-- Closing a point element from an arbitrary state: a point is
appended exactly when `emitSt` fires, carrying the current index, and
the index advances with saturation exactly on emission. -/
theorem gpxRun_close_emit (pf : String → Option F) (pt : String → Option Int)
    (st' : GpxStateM F) (out : List (GpxPointM F)) (rest : List XmlEvent) :
    ∃ st2 : GpxStateM F, st2.in_trkpt = false ∧
      st2.idx = (if (emitSt st').isSome then satSucc st'.idx else st'.idx) ∧
      gpxPointsRun pf pt st' out (XmlEvent.tagClose "trkpt" :: rest) =
        gpxPointsRun pf pt st2
          (out ++ ((emitSt st').toList.map
            fun p => ⟨st'.idx, p.t, p.lat, p.lon, p.ele⟩)) rest := by
  have hstep : gpxPointsRun pf pt st' out (XmlEvent.tagClose "trkpt" :: rest) =
      gpxPointsRun pf pt (handle_gpx_end st' "trkpt" out).1
        (handle_gpx_end st' "trkpt" out).2 rest := rfl
  refine ⟨(handle_gpx_end st' "trkpt" out).1, ?_, ?_, ?_⟩
  · rcases h1 : st'.cur_lat with - | la <;>
      rcases h2 : st'.cur_lon with - | lo <;>
      rcases h3 : st'.cur_time with - | t <;>
      simp [handle_gpx_end, emitSt, h1, h2, h3]
  · rcases h1 : st'.cur_lat with - | la <;>
      rcases h2 : st'.cur_lon with - | lo <;>
      rcases h3 : st'.cur_time with - | t <;>
      simp [handle_gpx_end, emitSt, h1, h2, h3]
  · rw [hstep]
    have hout : (handle_gpx_end st' "trkpt" out).2 =
        out ++ ((emitSt st').toList.map
          fun p => ⟨st'.idx, p.t, p.lat, p.lon, p.ele⟩) := by
      rcases h1 : st'.cur_lat with - | la <;>
        rcases h2 : st'.cur_lon with - | lo <;>
        rcases h3 : st'.cur_time with - | t <;>
        simp [handle_gpx_end, emitSt, h1, h2, h3]
    rw [hout]

/-- Processing one whole point element: a point is appended exactly
when `emitOf` fires, carrying the entry index, and the index advances
with saturation exactly on emission. -/
theorem gpxRun_seg (pf : String → Option F) (pt : String → Option Int)
    (attrs : List (String × String)) (inner : List XmlEvent) (hin : inertB inner = true)
    (st : GpxStateM F) (out : List (GpxPointM F)) (rest : List XmlEvent) :
    ∃ st2 : GpxStateM F, st2.in_trkpt = false ∧
      st2.idx = (if (emitOf pf pt attrs inner).isSome then satSucc st.idx else st.idx) ∧
      gpxPointsRun pf pt st out
          (XmlEvent.tagOpen "trkpt" attrs :: (inner ++ XmlEvent.tagClose "trkpt" :: rest)) =
        gpxPointsRun pf pt st2
          (out ++ ((emitOf pf pt attrs inner).toList.map
            fun p => ⟨st.idx, p.t, p.lat, p.lon, p.ele⟩)) rest := by
  have hopen : handle_gpx_start pf st "trkpt" attrs =
      { st with
        in_trkpt := true, in_time := false, in_ele := false
        cur_lat := (parseTrkptLatLon pf attrs).1, cur_lon := (parseTrkptLatLon pf attrs).2
        cur_time := none, cur_ele := none } := by
    unfold handle_gpx_start
    rw [if_pos rfl]
  have hrun1 : gpxPointsRun pf pt st out
      (XmlEvent.tagOpen "trkpt" attrs :: (inner ++ XmlEvent.tagClose "trkpt" :: rest)) =
      gpxPointsRun pf pt
        (withTE
          { st with
            in_trkpt := true, in_time := false, in_ele := false
            cur_lat := (parseTrkptLatLon pf attrs).1, cur_lon := (parseTrkptLatLon pf attrs).2
            cur_time := none, cur_ele := none }
          (capturedTE pf pt ⟨false, false, none, none⟩ inner))
        out (XmlEvent.tagClose "trkpt" :: rest) := by
    rw [show gpxPointsRun pf pt st out
        (XmlEvent.tagOpen "trkpt" attrs :: (inner ++ XmlEvent.tagClose "trkpt" :: rest)) =
        gpxPointsRun pf pt (handle_gpx_start pf st "trkpt" attrs) out
          (inner ++ XmlEvent.tagClose "trkpt" :: rest) from rfl, hopen]
    exact gpxRun_inner pf pt inner hin _ out (XmlEvent.tagClose "trkpt" :: rest) rfl
  have hemit : emitOf pf pt attrs inner =
      emitSt (withTE
        { st with
          in_trkpt := true, in_time := false, in_ele := false
          cur_lat := (parseTrkptLatLon pf attrs).1, cur_lon := (parseTrkptLatLon pf attrs).2
          cur_time := none, cur_ele := none }
        (capturedTE pf pt ⟨false, false, none, none⟩ inner)) := rfl
  obtain ⟨st2, b1, b2, b3⟩ :=
    gpxRun_close_emit pf pt
      (withTE
        { st with
          in_trkpt := true, in_time := false, in_ele := false
          cur_lat := (parseTrkptLatLon pf attrs).1, cur_lon := (parseTrkptLatLon pf attrs).2
          cur_time := none, cur_ele := none }
        (capturedTE pf pt ⟨false, false, none, none⟩ inner)) out rest
  refine ⟨st2, b1, ?_, ?_⟩
  · rw [hemit]
    exact b2
  · rw [hrun1, b3, ← hemit]
    rfl

/-- Index assignment distributes over cons. -/
theorem withIdx_cons (k : Int) (p : PrePoint F) (l : List (PrePoint F)) :
    withIdx k (p :: l) = ⟨k, p.t, p.lat, p.lon, p.ele⟩ :: withIdx (satSucc k) l := rfl

/-- Running the scanner over an assembled flat stream from outside a
point element: the output extends by exactly the per-segment emissions,
indexed in order from the current index. -/
theorem gpxRun_assemble (pf : String → Option F) (pt : String → Option Int) :
    ∀ (segs : List TrkSeg), segsInert segs = true →
      ∀ (post : List XmlEvent), inertB post = true →
      ∀ (st : GpxStateM F) (out : List (GpxPointM F)), st.in_trkpt = false →
        gpxPointsRun pf pt st out (assemble segs post) =
          .ok (out ++ withIdx st.idx
            (segs.filterMap fun s => emitOf pf pt s.attrs s.inner)) := by
  intro segs
  induction segs with
  | nil =>
    intro _ post hpost st out hst
    obtain ⟨st2, -, -, h3⟩ := gpxRun_inert pf pt post hpost st out [] hst
    have hshape : assemble [] post = post ++ [] := by simp [assemble]
    rw [hshape, h3]
    simp [withIdx, gpxPointsRun]
  | cons s segs ih =>
    intro hseg post hpost st out hst
    have hh : inertB s.gap = true ∧ inertB s.inner = true ∧ segsInert segs = true := by
      rw [segsInert] at hseg
      simp only [Bool.and_eq_true] at hseg
      exact ⟨hseg.1, hseg.2.1, hseg.2.2⟩
    have hshape : assemble (s :: segs) post =
        s.gap ++ (XmlEvent.tagOpen "trkpt" s.attrs ::
          (s.inner ++ XmlEvent.tagClose "trkpt" :: assemble segs post)) := by
      simp [assemble, List.append_assoc]
    rw [hshape]
    obtain ⟨stA, a1, a2, a3⟩ := gpxRun_inert pf pt s.gap hh.1 st out
      (XmlEvent.tagOpen "trkpt" s.attrs ::
        (s.inner ++ XmlEvent.tagClose "trkpt" :: assemble segs post)) hst
    rw [a3]
    obtain ⟨stB, b1, b2, b3⟩ :=
      gpxRun_seg pf pt s.attrs s.inner hh.2.1 stA out (assemble segs post)
    rw [b3]
    rw [ih hh.2.2 post hpost stB _ b1]
    rcases hemit : emitOf pf pt s.attrs s.inner with - | p
    · rw [hemit] at b2
      simp only [Option.isSome_none, Bool.false_eq_true, if_false] at b2
      rw [List.filterMap_cons]
      simp only [hemit, Option.toList, List.map_nil, List.append_nil]
      rw [b2, a2]
    · rw [hemit] at b2
      simp only [Option.isSome_some, if_true] at b2
      rw [List.filterMap_cons]
      simp only [hemit, Option.toList, List.map_cons, List.map_nil]
      rw [withIdx_cons, b2, a2]
      simp [List.append_assoc]

/-- The indices assigned to the emissions form the saturated range. -/
theorem withIdx_map_idx (l : List (PrePoint F)) : ∀ k : Int,
    (withIdx k l).map GpxPointM.idx = satRange k l.length := by
  induction l with
  | nil => intro k; rfl
  | cons p l ih => intro k; simp [withIdx_cons, satRange, ih]

/-- Index assignment keeps the length. -/
theorem withIdx_length (l : List (PrePoint F)) : ∀ k : Int, (withIdx k l).length = l.length := by
  induction l with
  | nil => intro k; rfl
  | cons p l ih => intro k; simp [withIdx_cons, ih]

/-- Below the saturation bound the index sequence is the plain integer
range. -/
theorem satRange_eq_range : ∀ (n k : Nat), k + n ≤ 2147483648 →
    satRange (Int.ofNat k) n = (List.range' k n).map Int.ofNat := by
  intro n
  induction n with
  | zero => intro k _; rfl
  | succ n ih =>
    intro k h
    cases n with
    | zero => rfl
    | succ m =>
      have hs : satSucc (Int.ofNat k) = Int.ofNat (k + 1) := by
        unfold satSucc i32Max
        simp only [Int.ofNat_eq_natCast]
        rw [min_eq_left (by omega)]
        omega
      rw [show satRange (Int.ofNat k) (m + 1 + 1) =
          Int.ofNat k :: satRange (satSucc (Int.ofNat k)) (m + 1) from rfl]
      rw [hs, ih (k + 1) (by omega)]
      nth_rewrite 2 [List.range'_succ]
      rw [List.map_cons]

/-- The last assigned index of n + 1 emissions starting at an in-range
index. -/
theorem satRange_getLast : ∀ (n : Nat) (k : Int), 0 ≤ k → k ≤ i32Max →
    (satRange k (n + 1)).getLast? = some (min (k + n) i32Max) := by
  intro n
  induction n with
  | zero =>
    intro k h0 hM
    have hmin : min (k + ((0 : Nat) : Int)) i32Max = k := by
      simp only [Nat.cast_zero, add_zero]
      exact min_eq_left hM
    rw [hmin]
    rfl
  | succ n ih =>
    intro k h0 hM
    have hs0 : (0 : Int) ≤ satSucc k := by
      unfold satSucc i32Max
      omega
    have hsM : satSucc k ≤ i32Max := min_le_right _ _
    have e2 : satRange (satSucc k) (n + 1) = satSucc k :: satRange (satSucc (satSucc k)) n :=
      rfl
    rw [show satRange k (n + 1 + 1) = k :: satRange (satSucc k) (n + 1) from rfl]
    rw [e2, List.getLast?_cons_cons, ← e2, ih (satSucc k) hs0 hsM]
    congr 1
    unfold satSucc i32Max
    omega

/-- filterMap over a replicated element that maps to some. -/
theorem filterMap_replicate_some (f : α → Option β) (x : α) (y : β) (hf : f x = some y) :
    ∀ n, (List.replicate n x).filterMap f = List.replicate n y := by
  intro n
  induction n with
  | zero => rfl
  | succ n ih => simp [List.replicate_succ, List.filterMap_cons, hf, ih]

/-- A replicated inert segment list is inert. -/
theorem segsInert_replicate (s : TrkSeg) (h1 : inertB s.gap = true)
    (h2 : inertB s.inner = true) : ∀ n, segsInert (List.replicate n s) = true := by
  intro n
  induction n with
  | zero => rfl
  | succ n ih => simp [List.replicate_succ, segsInert, h1, h2, ih]

/-! Claim C7. -/

/-- C7 (counterexample): on a well-formed track file holding 2^31 + 1
point elements, the idx fields are not 0..n-1: the scanner advances the
index with `i32::saturating_add`, so from the 2^31-th emission on every
point carries idx 2147483647. -/
theorem C7_counterexample :
    c7Points.map GpxPointM.idx ≠ (List.range c7Points.length).map Int.ofNat := by
  have hseg : segsInert (List.replicate 2147483649 c7Seg) = true :=
    segsInert_replicate c7Seg (by decide) (by decide) _
  have hemit : emitOf parseIntM parseRfc3339M c7Seg.attrs c7Seg.inner =
      some ⟨0, 1, 2, none⟩ := by decide
  have hrun : parse_gpx_points parseIntM parseRfc3339M c7File =
      .ok (withIdx 0 (List.replicate 2147483649 (⟨0, 1, 2, none⟩ : PrePoint Int))) := by
    have hstep : parse_gpx_points parseIntM parseRfc3339M c7File =
        gpxPointsRun parseIntM parseRfc3339M gpxInit []
          (assemble (List.replicate 2147483649 c7Seg) []) := by
      simp only [c7File, parse_gpx_points]
    rw [hstep]
    rw [gpxRun_assemble parseIntM parseRfc3339M _ hseg [] rfl gpxInit [] rfl]
    rw [filterMap_replicate_some
      (fun s : TrkSeg => emitOf parseIntM parseRfc3339M s.attrs s.inner) c7Seg
      ⟨0, 1, 2, none⟩ hemit]
    rfl
  have hpts : c7Points =
      withIdx 0 (List.replicate 2147483649 (⟨0, 1, 2, none⟩ : PrePoint Int)) := by
    simp only [c7Points]
    rw [hrun]
    rfl
  rw [hpts, withIdx_map_idx, withIdx_length, List.length_replicate]
  intro heq
  have hlast := congrArg List.getLast? heq
  rw [show (2147483649 : Nat) = 2147483648 + 1 from rfl] at hlast
  rw [satRange_getLast 2147483648 0 (by norm_num) (by norm_num [i32Max])] at hlast
  rw [List.range_succ, List.map_append, List.map_cons, List.map_nil,
    List.getLast?_concat] at hlast
  injection hlast with hlast
  unfold i32Max at hlast
  simp only [Int.ofNat_eq_natCast] at hlast
  omega

/-- C7 (amended): on every well-formed parse whose point elements are
not nested, a GeoPoint is emitted for a point element exactly when
latitude, longitude and a time were all captured for it (elevation
optional), the emitted points appear in file order, and — provided the
number of emitted points does not exceed 2^31 — their idx fields are
exactly 0..n-1 with no gaps, regardless of intervening unparsable
sub-elements. -/
theorem C7_amended (F : Type) (pf : String → Option F) (pt : String → Option Int)
    (segs : List TrkSeg) (post : List XmlEvent)
    (h1 : segsInert segs = true) (h2 : inertB post = true)
    (hlen : (segs.filterMap fun s => emitOf pf pt s.attrs s.inner).length ≤ 2147483648) :
    parse_gpx_points pf pt ⟨true, false, assemble segs post⟩ =
      .ok (withIdx 0 (segs.filterMap fun s => emitOf pf pt s.attrs s.inner)) ∧
    (withIdx 0 (segs.filterMap fun s => emitOf pf pt s.attrs s.inner)).map GpxPointM.idx
      = (List.range (segs.filterMap fun s => emitOf pf pt s.attrs s.inner).length).map
          Int.ofNat ∧
    (∀ (attrs : List (String × String)) (inner : List XmlEvent),
      (emitOf pf pt attrs inner).isSome = true ↔
        ((parseTrkptLatLon pf attrs).1.isSome = true ∧
          (parseTrkptLatLon pf attrs).2.isSome = true ∧
          (capturedTE pf pt ⟨false, false, none, none⟩ inner).cur_time.isSome = true)) := by
  refine ⟨?_, ?_, ?_⟩
  · rw [show parse_gpx_points pf pt (⟨true, false, assemble segs post⟩ : GpxFileM) =
        gpxPointsRun pf pt gpxInit [] (assemble segs post) from rfl]
    rw [gpxRun_assemble pf pt segs h1 post h2 gpxInit [] rfl]
    rfl
  · rw [withIdx_map_idx, show (0 : Int) = Int.ofNat 0 from rfl,
      satRange_eq_range _ 0 (by omega), List.range_eq_range']
  · intro attrs inner
    unfold emitOf
    rcases hA : (parseTrkptLatLon pf attrs).1 with - | la <;>
      rcases hB : (parseTrkptLatLon pf attrs).2 with - | lo <;>
      rcases hC : (capturedTE pf pt
        (⟨false, false, none, none⟩ : TimeEleSt F) inner).cur_time with - | t <;>
      simp [hA, hB, hC]

/-- C7 (witness): the amended theorem applied to a concrete two-element
stream, of which only the first point element captures latitude,
longitude and time. -/
theorem C7_amended_witness :
    parse_gpx_points parseIntM parseRfc3339M
        ⟨true, false, assemble [c7Seg, ⟨[], [("lat", "3")], []⟩] []⟩ =
      .ok (withIdx 0 ([c7Seg, ⟨[], [("lat", "3")], []⟩].filterMap
        fun s => emitOf parseIntM parseRfc3339M s.attrs s.inner)) ∧
    (withIdx 0 ([c7Seg, ⟨[], [("lat", "3")], []⟩].filterMap
        fun s => emitOf parseIntM parseRfc3339M s.attrs s.inner)).map GpxPointM.idx
      = (List.range ([c7Seg, ⟨[], [("lat", "3")], []⟩].filterMap
          fun s => emitOf parseIntM parseRfc3339M s.attrs s.inner).length).map Int.ofNat ∧
    (∀ (attrs : List (String × String)) (inner : List XmlEvent),
      (emitOf parseIntM parseRfc3339M attrs inner).isSome = true ↔
        ((parseTrkptLatLon parseIntM attrs).1.isSome = true ∧
          (parseTrkptLatLon parseIntM attrs).2.isSome = true ∧
          (capturedTE parseIntM parseRfc3339M
            ⟨false, false, none, none⟩ inner).cur_time.isSome = true)) :=
  C7_amended Int parseIntM parseRfc3339M [c7Seg, ⟨[], [("lat", "3")], []⟩] []
    (by decide) (by decide) (by decide)

end Roudenn
